import Mathlib

/-!
Verification of the git worktree management toolset (worktree-common.mjs,
worktree-add, worktree-remove, worktree-switch, worktree-sync,
worktree-status).

The scripts are thin shell-out-and-parse programs.  Their pure parts
(porcelain decoding, status counting, ignore-file maintenance, argument
parsing and the control flow of each command) are embedded as executable
Lean functions.  Every external-process invocation is modelled as a value
supplied by an environment record: `none`/`false` stands for a failing
invocation, `some out`/`true` for a successful one with captured output
`out`.  JavaScript strings are modelled as lists of characters (`JStr`),
because the source operates on them only through `split`, `startsWith`,
`substring`, `trim`, `includes` and `replace`, all of which are
re-implemented below with JS semantics (including the truthiness of
strings: the empty string is falsy).
-/

namespace WT

/-- A JavaScript string value, modelled as its sequence of characters. -/
abbrev JStr := List Char

/-- JS `String.prototype.split` with a single-character separator
(auxiliary: `cur` is the reversed pending chunk). -/
def jsSplitAux (sep : Char) : List Char → List Char → List (List Char)
  | [], cur => [cur.reverse]
  | c :: rest, cur =>
    if c = sep then cur.reverse :: jsSplitAux sep rest []
    else jsSplitAux sep rest (c :: cur)

/-- JS `s.split(sep)` for a one-character separator. -/
def jsSplit (s : JStr) (sep : Char) : List JStr := jsSplitAux sep s []

/-- JS `String.prototype.startsWith`. -/
def jsStartsWith (s pre : JStr) : Bool := pre.isPrefixOf s

/-- JS `String.prototype.trim`: whitespace removed at both ends. -/
def jsTrim (s : JStr) : JStr :=
  ((s.dropWhile Char.isWhitespace).reverse.dropWhile Char.isWhitespace).reverse

/-- JS `s.replace(pat, '')` for a plain-text pattern: removes the first
occurrence of `pat` (the source only ever replaces by the empty string). -/
def jsRemoveFirst (s pat : JStr) : JStr :=
  match s with
  | [] => []
  | c :: rest =>
    if pat.isPrefixOf (c :: rest) then (c :: rest).drop pat.length
    else c :: jsRemoveFirst rest pat

/-- JS truthiness of a nullable string: `null`/`undefined` and the empty
string are falsy. -/
def strTruthy : Option JStr → Bool
  | none => false
  | some s => !s.isEmpty

/-- The reserved worktree directory name (`WORKTREE_DIR` in
worktree-common.mjs). -/
def WORKTREE_DIR : JStr := ".opencode-wt".data

/-- `getWorktreeBase` from worktree-common.mjs. -/
def getWorktreeBase (repoRoot : JStr) : JStr := repoRoot ++ "/".data ++ WORKTREE_DIR

/-- One record produced by the porcelain decoder (`getWorktrees`).
Absent object properties of the JS record are `none`/`false`; the
`path` of the freshly created `current = {}` object is the empty string
(which is falsy, exactly as the absent property is). -/
structure Worktree where
  path : JStr
  commit : Option JStr := none
  branch : Option JStr := none
  bare : Bool := false
  detached : Bool := false
  locked : Option JStr := none
  prunable : Option JStr := none
deriving DecidableEq, Repr

/-- One non-`worktree` line of the porcelain listing applied to the
record under construction: the `else if` chain of `getWorktrees`. -/
def applyInfoLine (current : Worktree) (line : JStr) : Worktree :=
  if jsStartsWith line "HEAD ".data then { current with commit := some (line.drop 5) }
  else if jsStartsWith line "branch ".data then
    { current with branch := some (jsRemoveFirst (line.drop 7) "refs/heads/".data) }
  else if line = "bare".data then { current with bare := true }
  else if line = "detached".data then { current with detached := true }
  else if jsStartsWith line "locked ".data then { current with locked := some (line.drop 7) }
  else if jsStartsWith line "prunable ".data then { current with prunable := some (line.drop 9) }
  else current

/-- One step of the `getWorktrees` loop: a `worktree ` line pushes the
finished record (if its path is truthy) and starts a new one; any other
line updates the record under construction. -/
def getWorktreesStep (st : List Worktree × Worktree) (line : JStr) :
    List Worktree × Worktree :=
  if jsStartsWith line "worktree ".data then
    ((if st.2.path ≠ [] then st.1 ++ [st.2] else st.1), { path := line.drop 9 })
  else (st.1, applyInfoLine st.2 line)

/-- The trailing `if (current.path) worktrees.push(current)` of
`getWorktrees`. -/
def flushCurrent (st : List Worktree × Worktree) : List Worktree :=
  if st.2.path ≠ [] then st.1 ++ [st.2] else st.1

/-- The loop body of `getWorktrees` applied to the already-split lines. -/
def parseWorktreeLines (lines : List JStr) : List Worktree :=
  flushCurrent (lines.foldl getWorktreesStep ([], { path := [] }))

/-- `getWorktrees` from worktree-common.mjs, applied to the captured
output of the listing command (the surrounding try/catch, which exits
fatally when the listing command itself fails, is modelled at the
command level by `Option (List Worktree)` environment fields). -/
def getWorktrees (output : JStr) : List Worktree :=
  parseWorktreeLines (jsSplit output '\n')

/-- A line of the listing that starts a new path field. -/
def markerLine (l : JStr) : Bool := jsStartsWith l "worktree ".data

/-- The path texts of the marker lines, in input order. -/
def markerPaths (lines : List JStr) : List JStr :=
  (lines.filter markerLine).map (List.drop 9)

/-- The records contributed by the remaining `lines` when the record
under construction is `cur`: a reformulation of the `getWorktrees` loop
used to reason about it block by block. -/
def recordsFrom (cur : Worktree) : List JStr → List Worktree
  | [] => if cur.path ≠ [] then [cur] else []
  | l :: rest =>
    if markerLine l then
      (if cur.path ≠ [] then [cur] else []) ++ recordsFrom { path := l.drop 9 } rest
    else recordsFrom (applyInfoLine cur l) rest

/-- The record decoded from one block: the marker's path text followed by
the block's info lines. -/
def procBlock (p : JStr) (infos : List JStr) : Worktree :=
  infos.foldl applyInfoLine { path := p }

/-- `getWorktreeForBranch` from worktree-common.mjs: strict equality of
the record's (possibly absent) branch with the requested name. -/
def getWorktreeForBranch (worktrees : List Worktree) (branchName : JStr) :
    Option Worktree :=
  worktrees.find? (fun wt => wt.branch == some branchName)

/-- `ensureGitignore` from worktree-common.mjs as a function from the
prior ignore-file content (`none` = file absent) to the content after
the call.  The fatal-free try/catch around the file operations only
downgrades filesystem errors to a warning; the filesystem itself is
modelled as reliable. -/
def ensureGitignore (gitignore : Option JStr) : JStr :=
  match gitignore with
  | none => WORKTREE_DIR ++ "/\n".data
  | some content =>
    let lines := jsSplit content '\n'
    if lines.contains WORKTREE_DIR || lines.contains (WORKTREE_DIR ++ "/".data) then
      content
    else content ++ "\n".data ++ WORKTREE_DIR ++ "/\n".data

/-- The lines of an ignore-file content equal to the reserved entry, with
or without the trailing separator. -/
def entryLines (content : JStr) : List JStr :=
  (jsSplit content '\n').filter
    (fun l => l == WORKTREE_DIR || l == WORKTREE_DIR ++ "/".data)

/-- The per-checkout counts of `getWorktreeStatus` (worktree-status). -/
structure StatusCounts where
  clean : Bool
  modified : Nat
  added : Nat
  deleted : Nat
  untracked : Nat
  total : Nat
deriving DecidableEq, Repr

/-- Result of `getWorktreeStatus`: the catch branch returns the error
marker. -/
inductive WorktreeStatus
  | error
  | counts (c : StatusCounts)
deriving DecidableEq, Repr

/-- `getWorktreeStatus` from worktree-status, applied to the result of
the status query (`none` = the query failed). -/
def getWorktreeStatus (statusResult : Option JStr) : WorktreeStatus :=
  match statusResult with
  | none => .error
  | some statusOutput =>
    let lines := (jsSplit (jsTrim statusOutput) '\n').filter (fun l => !l.isEmpty)
    .counts
      { clean := lines.length == 0
        modified := lines.countP (fun l => (l.take 2).contains 'M')
        added := lines.countP (fun l => (l.take 2).contains 'A')
        deleted := lines.countP (fun l => (l.take 2).contains 'D')
        untracked := lines.countP (fun l => (l.take 2).contains '?')
        total := lines.length }

/-- `getCurrentBranch` from worktree-common.mjs, applied to the result of
the symbolic-name query (`none` = the query failed, the catch branch). -/
def getCurrentBranch (cmdResult : Option JStr) : Option JStr :=
  match cmdResult with
  | none => none
  | some branch => some (jsTrim branch)

/-- Modelled behavior of the external version-control tool's
symbolic-name query (`rev-parse --abbrev-ref HEAD`), as documented: it
prints the checked-out branch's name, or the literal string `HEAD` when
the checkout is detached, and succeeds in both cases; the captured
output carries a trailing newline. -/
def revParseAbbrevRefHead (headBranch : Option JStr) : Option JStr :=
  match headBranch with
  | some b => some (b ++ "\n".data)
  | none => some ("HEAD\n".data)

/-- `getCurrentBranch` composed with the modelled query, as a function of
the repository's head state (`none` = detached). -/
def currentBranchIn (headBranch : Option JStr) : Option JStr :=
  getCurrentBranch (revParseAbbrevRefHead headBranch)

/-- External actions a command performs, in order. -/
inductive Effect
  | mkdirBase (path : JStr)
  | gitignoreUpdate (repoRoot : JStr)
  | worktreeAddCheckout (path branch : JStr)
  | worktreeAddTrack (path branch : JStr)
  | worktreeAddNewFrom (path branch base : JStr)
  | worktreeAddNewHead (path branch : JStr)
  | statusQuery (path : JStr)
  | worktreeRemove (path : JStr) (force : Bool)
  | branchDelete (branch : JStr) (force : Bool)
  | openSession (path : JStr)
deriving DecidableEq, Repr

/-- Parsed argv of worktree-remove's `main`. -/
inductive RemoveParse
  | usage
  | unknown (opt : JStr)
  | multiple
  | ok (branchName : Option JStr) (deleteBranch force : Bool)
deriving DecidableEq, Repr

/-- The argument loop of worktree-remove's `main`. -/
def parseRemoveArgsAux : List JStr → Option JStr → Bool → Bool → RemoveParse
  | [], bn, db, f => .ok bn db f
  | a :: rest, bn, db, f =>
    if a = "--delete-branch".data then parseRemoveArgsAux rest bn true f
    else if a = "--force".data then parseRemoveArgsAux rest bn db true
    else if a = "--help".data ∨ a = "-h".data then .usage
    else if jsStartsWith a "-".data then .unknown a
    else if strTruthy bn = false then parseRemoveArgsAux rest (some a) db f
    else .multiple

/-- Environment of one worktree-remove run: the outcomes of its external
invocations.  `inRepo` covers the two preflight repository probes
(`checkGitRepo` and `getRepoRoot`, which both exit fatally outside a
repository); `statusResult` is the status query at the resolved
worktree's path; `removeOk` and `branchDeleteOk` are the outcomes of the
removal and branch-deletion invocations. -/
structure RemoveEnv where
  inRepo : Bool
  repoRoot : JStr
  worktreesResult : Option (List Worktree)
  statusResult : Option JStr
  removeOk : Bool
  branchDeleteOk : Bool

/-- Outcome of worktree-remove's `main`. -/
inductive RemoveResult
  | usage
  | unknownOption (opt : JStr)
  | multipleBranch
  | notARepo
  | listFailed
  | listLinked (linked : List Worktree)
  | notFound (branch : JStr)
  | mainWorktreeProtected
  | dirtyWorkingTree (statusText : JStr)
  | removeFailed (statusWarned : Bool)
  | done (statusWarned branchDeleteWarned : Bool)
deriving DecidableEq, Repr

/-- Exit code of each worktree-remove outcome. -/
def RemoveResult.exitCode : RemoveResult → Nat
  | .usage => 0
  | .unknownOption _ => 1
  | .multipleBranch => 1
  | .notARepo => 1
  | .listFailed => 1
  | .listLinked _ => 0
  | .notFound _ => 1
  | .mainWorktreeProtected => 1
  | .dirtyWorkingTree _ => 1
  | .removeFailed _ => 1
  | .done _ _ => 0

/-- Whether the outcome carries the could-not-check-status warning. -/
def RemoveResult.statusWarned : RemoveResult → Bool
  | .removeFailed w => w
  | .done w _ => w
  | _ => false

/-- The removal phase of worktree-remove: remove the worktree, then
optionally delete the branch (a deletion failure is only a warning). -/
def removePhase (env : RemoveEnv) (branchName : JStr)
    (deleteBranch force statusWarned : Bool) (worktree : Worktree)
    (effs : List Effect) : RemoveResult × List Effect :=
  let effs := effs ++ [Effect.worktreeRemove worktree.path force]
  if env.removeOk = false then (.removeFailed statusWarned, effs)
  else if deleteBranch then
    let effs := effs ++ [Effect.branchDelete branchName force]
    if env.branchDeleteOk then (.done statusWarned false, effs)
    else (.done statusWarned true, effs)
  else (.done statusWarned false, effs)

/-- The no-branch-name path of worktree-remove: list the linked records. -/
def removeListing (env : RemoveEnv) : RemoveResult × List Effect :=
  match env.worktreesResult with
  | none => (.listFailed, [])
  | some wts =>
    (.listLinked (wts.filter (fun wt => !(wt.path == env.repoRoot) && strTruthy wt.branch)), [])

/-- `main` of worktree-remove. -/
def removeMain (args : List JStr) (env : RemoveEnv) : RemoveResult × List Effect :=
  match parseRemoveArgsAux args none false false with
  | .usage => (.usage, [])
  | .unknown o => (.unknownOption o, [])
  | .multiple => (.multipleBranch, [])
  | .ok bn deleteBranch force =>
    if env.inRepo = false then (.notARepo, [])
    else if strTruthy bn = false then removeListing env
    else
      let branchName := bn.getD []
      match env.worktreesResult with
      | none => (.listFailed, [])
      | some wts =>
        match getWorktreeForBranch wts branchName with
        | none => (.notFound branchName, [])
        | some worktree =>
          if worktree.path == env.repoRoot then (.mainWorktreeProtected, [])
          else if force then
            removePhase env branchName deleteBranch force false worktree []
          else
            match env.statusResult with
            | some st =>
              if jsTrim st ≠ [] then
                (.dirtyWorkingTree st, [Effect.statusQuery worktree.path])
              else
                removePhase env branchName deleteBranch force false worktree
                  [Effect.statusQuery worktree.path]
            | none =>
              removePhase env branchName deleteBranch force true worktree
                [Effect.statusQuery worktree.path]

/-- Parsed argv of worktree-switch's `main`. -/
inductive SwitchParse
  | usage
  | unknown (opt : JStr)
  | multiple
  | ok (branchName : Option JStr)
deriving DecidableEq, Repr

/-- The argument loop of worktree-switch's `main`. -/
def parseSwitchArgsAux : List JStr → Option JStr → SwitchParse
  | [], bn => .ok bn
  | a :: rest, bn =>
    if a = "--help".data ∨ a = "-h".data then .usage
    else if jsStartsWith a "-".data then .unknown a
    else if strTruthy bn = false then parseSwitchArgsAux rest (some a)
    else .multiple

/-- Environment of one worktree-switch run. -/
structure SwitchEnv where
  inRepo : Bool
  repoRoot : JStr
  worktreesResult : Option (List Worktree)

/-- Outcome of worktree-switch's `main`. -/
inductive SwitchResult
  | usage
  | unknownOption (opt : JStr)
  | multipleBranch
  | notARepo
  | listFailed
  | listAll (wts : List Worktree)
  | notFound (branch : JStr)
  | opened (path : JStr)
deriving DecidableEq, Repr

/-- Exit code of each worktree-switch outcome. -/
def SwitchResult.exitCode : SwitchResult → Nat
  | .usage => 0
  | .unknownOption _ => 1
  | .multipleBranch => 1
  | .notARepo => 1
  | .listFailed => 1
  | .listAll _ => 0
  | .notFound _ => 1
  | .opened _ => 0

/-- `main` of worktree-switch (the current-directory highlighting of the
listing path is display-only and not tracked). -/
def switchMain (args : List JStr) (env : SwitchEnv) : SwitchResult × List Effect :=
  match parseSwitchArgsAux args none with
  | .usage => (.usage, [])
  | .unknown o => (.unknownOption o, [])
  | .multiple => (.multipleBranch, [])
  | .ok bn =>
    if env.inRepo = false then (.notARepo, [])
    else if strTruthy bn = false then
      match env.worktreesResult with
      | none => (.listFailed, [])
      | some wts => (.listAll wts, [])
    else
      let branchName := bn.getD []
      match env.worktreesResult with
      | none => (.listFailed, [])
      | some wts =>
        match getWorktreeForBranch wts branchName with
        | none => (.notFound branchName, [])
        | some worktree => (.opened worktree.path, [Effect.openSession worktree.path])

/-- Parsed argv of worktree-add's `main`. -/
inductive AddParse
  | usage
  | unknown (opt : JStr)
  | multiple
  | ok (branchName baseBranch : Option JStr) (shouldOpen : Bool)
deriving DecidableEq, Repr

/-- The argument loop of worktree-add's `main`: `--from` consumes the
next argument when one exists; a trailing `--from` falls through to the
unknown-option branch, as in the source. -/
def parseAddArgsAux : List JStr → Option JStr → Option JStr → Bool → AddParse
  | [], bn, bb, so => .ok bn bb so
  | a :: rest, bn, bb, so =>
    if a = "--from".data then
      match rest with
      | b :: rest2 => parseAddArgsAux rest2 bn (some b) so
      | [] => .unknown a
    else if a = "--no-open".data then parseAddArgsAux rest bn bb false
    else if a = "--help".data ∨ a = "-h".data then .usage
    else if jsStartsWith a "-".data then .unknown a
    else if strTruthy bn = false then parseAddArgsAux rest (some a) bb so
    else .multiple

/-- Environment of one worktree-add run: `branchNameValid` is the
reference-name validation query, `localBranchExists` and
`remoteBranchExists` the two existence probes, `checkoutOk` the outcome
of the checkout invocation that the run performs (the current-branch
query of the create-from-HEAD message is display-only and not
tracked). -/
structure AddEnv where
  inRepo : Bool
  branchNameValid : JStr → Bool
  repoRoot : JStr
  worktreesResult : Option (List Worktree)
  localBranchExists : JStr → Bool
  remoteBranchExists : JStr → Bool
  checkoutOk : Bool

/-- Outcome of worktree-add's `main`. -/
inductive AddResult
  | usage
  | unknownOption (opt : JStr)
  | multipleBranch
  | missingBranch
  | notARepo
  | invalidName
  | listFailed
  | alreadyExists (path : JStr)
  | checkoutFailed
  | created (path : JStr)
deriving DecidableEq, Repr

/-- Exit code of each worktree-add outcome. -/
def AddResult.exitCode : AddResult → Nat
  | .usage => 0
  | .unknownOption _ => 1
  | .multipleBranch => 1
  | .missingBranch => 1
  | .notARepo => 1
  | .invalidName => 1
  | .listFailed => 1
  | .alreadyExists _ => 0
  | .checkoutFailed => 1
  | .created _ => 0

/-- `main` of worktree-add. -/
def addMain (args : List JStr) (env : AddEnv) : AddResult × List Effect :=
  match parseAddArgsAux args none none true with
  | .usage => (.usage, [])
  | .unknown o => (.unknownOption o, [])
  | .multiple => (.multipleBranch, [])
  | .ok bn baseBranch shouldOpen =>
    if strTruthy bn = false then (.missingBranch, [])
    else
      let branchName := bn.getD []
      if env.inRepo = false then (.notARepo, [])
      else if env.branchNameValid branchName = false then (.invalidName, [])
      else
        let worktreeBase := getWorktreeBase env.repoRoot
        let worktreePath := worktreeBase ++ "/".data ++ branchName
        match env.worktreesResult with
        | none => (.listFailed, [])
        | some wts =>
          match getWorktreeForBranch wts branchName with
          | some existing =>
            (.alreadyExists existing.path,
              if shouldOpen then [Effect.openSession existing.path] else [])
          | none =>
            let pre : List Effect :=
              [Effect.mkdirBase worktreeBase, Effect.gitignoreUpdate env.repoRoot]
            let checkout : Effect :=
              if env.localBranchExists branchName then
                .worktreeAddCheckout worktreePath branchName
              else if env.remoteBranchExists branchName then
                .worktreeAddTrack worktreePath branchName
              else
                match baseBranch with
                | some base =>
                  if base ≠ [] then .worktreeAddNewFrom worktreePath branchName base
                  else .worktreeAddNewHead worktreePath branchName
                | none => .worktreeAddNewHead worktreePath branchName
            if env.checkoutOk then
              (.created worktreePath,
                pre ++ [checkout] ++
                  (if shouldOpen then [Effect.openSession worktreePath] else []))
            else (.checkoutFailed, pre ++ [checkout])

/-- Remote tracking status computed by `getRemoteStatus` (worktree-sync):
either the no-upstream sentinel or the upstream ref with ahead/behind
counts. -/
inductive RemoteStatus
  | noUpstream
  | tracking (upstream : JStr) (ahead behind : Nat)
deriving DecidableEq, Repr

/-- JS `Number(x) || 0` for the ahead/behind fields: the counting command
emits digit strings; anything else (including a missing field) collapses
to 0 through the NaN/undefined fallback. -/
def jsNumberOr0 : Option JStr → Nat
  | none => 0
  | some s =>
    if !s.isEmpty && s.all Char.isDigit then
      s.foldl (fun n c => 10 * n + (c.toNat - 48)) 0
    else 0

/-- Environment of one worktree-sync run: per-path results of the
upstream-name query, the counting query, the status query and the pull
invocation. -/
structure SyncEnv where
  inRepo : Bool
  repoRoot : JStr
  fetchOk : Bool
  worktreesResult : Option (List Worktree)
  upstreamResult : JStr → Option JStr
  countsResult : JStr → Option JStr
  statusResult : JStr → Option JStr
  pullOk : JStr → Bool

/-- `getRemoteStatus` from worktree-sync: `none` when the branch is
falsy; any query failure collapses to the no-upstream sentinel. -/
def getRemoteStatus (env : SyncEnv) (worktreePath : JStr) (branch : Option JStr) :
    Option RemoteStatus :=
  if strTruthy branch = false then none
  else
    match env.upstreamResult worktreePath with
    | none => some .noUpstream
    | some upstream =>
      if jsTrim upstream = [] then some .noUpstream
      else
        match env.countsResult worktreePath with
        | none => some .noUpstream
        | some counts =>
          let parts := jsSplit (jsTrim counts) '\t'
          some (.tracking (jsTrim upstream) (jsNumberOr0 parts.head?)
            (jsNumberOr0 (parts.drop 1).head?))

/-- `hasUncommittedChanges` from worktree-sync: a failing status query is
treated as no changes (the catch branch returns false). -/
def hasUncommittedChanges (env : SyncEnv) (worktreePath : JStr) : Bool :=
  match env.statusResult worktreePath with
  | none => false
  | some status => !(jsTrim status).isEmpty

/-- Parsed argv of worktree-sync's `main`. -/
inductive SyncParse
  | usage
  | unknown (opt : JStr)
  | ok (autoPull : Bool)
deriving DecidableEq, Repr

/-- The argument loop of worktree-sync's `main`. -/
def parseSyncArgsAux : List JStr → Bool → SyncParse
  | [], autoPull => .ok autoPull
  | a :: rest, _autoPull =>
    if a = "--pull".data then parseSyncArgsAux rest true
    else if a = "--help".data ∨ a = "-h".data then .usage
    else .unknown a

/-- Outcome of worktree-sync's `main`. -/
inductive SyncResult
  | usage
  | unknownOption (opt : JStr)
  | notARepo
  | fetchFailed
  | listFailed
  | noWorktrees
  | doneReport (behindCount : Nat)
  | donePull (updated upToDate errors : Nat)
deriving DecidableEq, Repr

/-- Exit code of each worktree-sync outcome. -/
def SyncResult.exitCode : SyncResult → Nat
  | .usage => 0
  | .unknownOption _ => 1
  | .notARepo => 1
  | .fetchFailed => 1
  | .listFailed => 1
  | .noWorktrees => 0
  | .doneReport _ => 0
  | .donePull _ _ _ => 0

/-- One iteration of worktree-sync's per-record loop, updating the
`(updated, upToDate, errors)` counters; `updated` and `errors` move only
in pull mode, exactly as in the source. -/
def syncStep (env : SyncEnv) (autoPull : Bool) (acc : Nat × Nat × Nat)
    (wt : Worktree) : Nat × Nat × Nat :=
  if strTruthy wt.branch = false then acc
  else
    match getRemoteStatus env wt.path wt.branch with
    | none => acc
    | some .noUpstream => acc
    | some (.tracking _ ahead behind) =>
      if ahead = 0 ∧ behind = 0 then (acc.1, acc.2.1 + 1, acc.2.2)
      else if 0 < behind ∧ autoPull then
        if hasUncommittedChanges env wt.path then (acc.1, acc.2.1, acc.2.2 + 1)
        else if env.pullOk wt.path then (acc.1 + 1, acc.2.1, acc.2.2)
        else (acc.1, acc.2.1, acc.2.2 + 1)
      else acc

/-- The report-only summary's predicate: a record with a truthy branch
whose remote status is tracking and strictly behind. -/
def syncBehind (env : SyncEnv) (wt : Worktree) : Bool :=
  strTruthy wt.branch &&
    match getRemoteStatus env wt.path wt.branch with
    | some (.tracking _ _ behind) => decide (0 < behind)
    | _ => false

/-- `main` of worktree-sync. -/
def syncMain (args : List JStr) (env : SyncEnv) : SyncResult :=
  match parseSyncArgsAux args false with
  | .usage => .usage
  | .unknown o => .unknownOption o
  | .ok autoPull =>
    if env.inRepo = false then .notARepo
    else if env.fetchOk = false then .fetchFailed
    else
      match env.worktreesResult with
      | none => .listFailed
      | some worktrees =>
        if worktrees.length = 0 then .noWorktrees
        else
          let acc := worktrees.foldl (syncStep env autoPull) (0, 0, 0)
          if autoPull then .donePull acc.1 acc.2.1 acc.2.2
          else .doneReport (worktrees.filter (syncBehind env)).length

/-! ### Concrete inputs used by the witnesses and counterexamples -/

/-- The main checkout's record. -/
def wtMainRecord : Worktree := { path := "/repo".data, branch := some ("main".data) }

/-- A linked checkout's record on branch `feat`. -/
def wtFeatRecord : Worktree :=
  { path := "/repo/.opencode-wt/feat".data, branch := some ("feat".data) }

/-- A detached linked checkout's record (no branch property). -/
def wtDetachedRecord : Worktree :=
  { path := "/repo/.opencode-wt/det".data, detached := true }

/-- A remove-run environment resolving `main` to the main record. -/
def removeEnvA : RemoveEnv :=
  { inRepo := true, repoRoot := "/repo".data,
    worktreesResult := some [wtMainRecord, wtFeatRecord],
    statusResult := some [], removeOk := true, branchDeleteOk := true }

/-- A remove-run environment whose status query fails. -/
def removeEnvB : RemoveEnv := { removeEnvA with statusResult := none }

/-- A remove-run environment whose listing holds a detached record and no
record on branch `feat`. -/
def removeEnvC : RemoveEnv :=
  { removeEnvA with worktreesResult := some [wtMainRecord, wtDetachedRecord] }

/-- A switch-run environment with the same listing as `removeEnvC`. -/
def switchEnvA : SwitchEnv :=
  { inRepo := true, repoRoot := "/repo".data,
    worktreesResult := some [wtMainRecord, wtDetachedRecord] }

/-- An add-run environment in which a record for `feat` already exists. -/
def addEnvA : AddEnv :=
  { inRepo := true, branchNameValid := fun _ => true, repoRoot := "/repo".data,
    worktreesResult := some [wtMainRecord, wtFeatRecord],
    localBranchExists := fun _ => true, remoteBranchExists := fun _ => false,
    checkoutOk := true }

/-- A sync-run environment with a successful fetch and listing. -/
def syncEnvA : SyncEnv :=
  { inRepo := true, repoRoot := "/repo".data, fetchOk := true,
    worktreesResult := some [wtMainRecord],
    upstreamResult := fun _ => none, countsResult := fun _ => none,
    statusResult := fun _ => none, pullOk := fun _ => true }

/-- A sync-run environment with a successful fetch but a failing listing. -/
def syncEnvB : SyncEnv := { syncEnvA with worktreesResult := none }

/-- A porcelain listing with an empty-path marker line. -/
def badMarkerListing : JStr := "worktree \nworktree /a".data

/-- A porcelain listing whose single block carries both a branch line and
a detached line. -/
def branchDetachedListing : JStr := "worktree /a\nbranch refs/heads/x\ndetached".data

/-- A porcelain listing with two well-formed blocks. -/
def goodListing : JStr :=
  "worktree /repo\nHEAD abc\nbranch refs/heads/main\n\nworktree /repo/.opencode-wt/feat\ndetached".data

/-- A porcelain listing with one detached block. -/
def detachedListing : JStr := "worktree /a\ndetached".data

/-- A status listing holding a single rename entry. -/
def renameStatusLine : JStr := "R  a -> b".data

/-- A status listing holding a single modified entry. -/
def modifiedStatusLine : JStr := " M a".data

/-- An ignore-file content holding the reserved entry twice. -/
def dupIgnoreContent : JStr := ".opencode-wt\n.opencode-wt".data

/-! ### Claim C1: the main worktree is never removable -/

/-- Claim C1: whenever the record resolved for the requested branch name
has a path equal to the repository root, worktree-remove fails with the
main-worktree-protected error and exit code 1, for every combination of
the `--force` and `--delete-branch` flags, and performs no external
action (in particular, no removal is attempted). -/
theorem removeMain_main_worktree_protected
    (args : List JStr) (env : RemoveEnv) (s : JStr) (db f : Bool)
    (wts : List Worktree) (wt : Worktree)
    (hp : parseRemoveArgsAux args none false false = .ok (some s) db f)
    (hs : s ≠ [])
    (hrepo : env.inRepo = true)
    (hw : env.worktreesResult = some wts)
    (hfind : getWorktreeForBranch wts s = some wt)
    (hmain : wt.path = env.repoRoot) :
    removeMain args env = (.mainWorktreeProtected, [])
    ∧ RemoveResult.exitCode .mainWorktreeProtected = 1 := by
  refine ⟨?_, rfl⟩
  simp [removeMain, hp, hrepo, hw, hfind, hmain, strTruthy, hs]

/-- Witness for C1: a concrete run (`remove main --force --delete-branch`
where the `main` record sits at the repository root). -/
theorem removeMain_main_worktree_protected_witness :
    removeMain ["main".data, "--force".data, "--delete-branch".data] removeEnvA =
      (.mainWorktreeProtected, [])
    ∧ RemoveResult.exitCode .mainWorktreeProtected = 1 :=
  removeMain_main_worktree_protected _ _ ("main".data) true true
    [wtMainRecord, wtFeatRecord] wtMainRecord (by decide) (by decide) rfl rfl
    (by decide) (by decide)

/-! ### Claim C2: add is idempotent on an existing record -/

/-- Claim C2: when a record for the requested branch already exists,
worktree-add performs no directory creation, no ignore-file write and no
checkout invocation; it reports the existing record's path, launches a
session there exactly when `--no-open` is absent, and exits 0. -/
theorem addMain_existing_idempotent
    (args : List JStr) (env : AddEnv) (s : JStr) (bb : Option JStr) (so : Bool)
    (wts : List Worktree) (existing : Worktree)
    (hp : parseAddArgsAux args none none true = .ok (some s) bb so)
    (hs : s ≠ [])
    (hrepo : env.inRepo = true)
    (hvalid : env.branchNameValid s = true)
    (hw : env.worktreesResult = some wts)
    (hfind : getWorktreeForBranch wts s = some existing) :
    addMain args env =
      (.alreadyExists existing.path,
        if so then [Effect.openSession existing.path] else [])
    ∧ AddResult.exitCode (.alreadyExists existing.path) = 0 := by
  refine ⟨?_, rfl⟩
  simp [addMain, hp, hrepo, hvalid, hw, hfind, strTruthy, hs]

/-- Witness for C2: a concrete run (`add feat` against a listing already
holding a record for `feat`). -/
theorem addMain_existing_idempotent_witness :
    addMain ["feat".data] addEnvA =
      (.alreadyExists wtFeatRecord.path, [Effect.openSession wtFeatRecord.path])
    ∧ AddResult.exitCode (.alreadyExists wtFeatRecord.path) = 0 := by
  have h := addMain_existing_idempotent ["feat".data] addEnvA ("feat".data) none true
    [wtMainRecord, wtFeatRecord] wtFeatRecord (by decide) (by decide) rfl rfl rfl
    (by decide)
  simpa using h

/-! ### Claim C9: a failed cleanliness query only warns -/

/-- Claim C9: in worktree-remove without `--force`, when the cleanliness
query itself fails, the command records only the warning and proceeds to
the removal: the removal invocation is among the performed effects and
the outcome is never the dirty-working-tree error. -/
theorem removeMain_status_check_failure_proceeds
    (args : List JStr) (env : RemoveEnv) (s : JStr) (db : Bool)
    (wts : List Worktree) (wt : Worktree)
    (hp : parseRemoveArgsAux args none false false = .ok (some s) db false)
    (hs : s ≠ [])
    (hrepo : env.inRepo = true)
    (hw : env.worktreesResult = some wts)
    (hfind : getWorktreeForBranch wts s = some wt)
    (hnm : wt.path ≠ env.repoRoot)
    (hst : env.statusResult = none) :
    Effect.worktreeRemove wt.path false ∈ (removeMain args env).2
    ∧ (removeMain args env).1.statusWarned = true
    ∧ ∀ t, (removeMain args env).1 ≠ .dirtyWorkingTree t := by
  have hred : removeMain args env =
      removePhase env s db false true wt [Effect.statusQuery wt.path] := by
    simp [removeMain, hp, hrepo, hw, hfind, hst, strTruthy, hs, hnm]
  rw [hred]
  unfold removePhase
  cases hrm : env.removeOk <;> cases db <;> cases hbd : env.branchDeleteOk <;>
    simp [RemoveResult.statusWarned]

/-- Witness for C9: a concrete run (`remove feat` with a failing status
query) applies the theorem at that input. -/
theorem removeMain_status_check_failure_proceeds_witness :
    Effect.worktreeRemove wtFeatRecord.path false ∈
      (removeMain ["feat".data] removeEnvB).2
    ∧ (removeMain ["feat".data] removeEnvB).1.statusWarned = true
    ∧ ∀ t, (removeMain ["feat".data] removeEnvB).1 ≠ .dirtyWorkingTree t :=
  removeMain_status_check_failure_proceeds ["feat".data] removeEnvB ("feat".data)
    false [wtMainRecord, wtFeatRecord] wtFeatRecord (by decide) (by decide) rfl rfl
    (by decide) (by decide) rfl

/-! ### Claim C10: lookup by branch name never resolves a detached record -/

/-- Claim C10: `getWorktreeForBranch` returns a record only when its
branch field equals the requested name exactly, so a record without a
branch is never returned; consequently, when no record carries the
requested branch, both worktree-remove and worktree-switch fail with the
not-found error (and perform no external action). -/
theorem getWorktreeForBranch_exact (wts : List Worktree) (name : JStr) :
    (∀ wt, getWorktreeForBranch wts name = some wt → wt.branch = some name)
    ∧ (∀ wt ∈ wts, wt.branch = none → ¬ getWorktreeForBranch wts name = some wt)
    ∧ ((∀ wt ∈ wts, wt.branch ≠ some name) → getWorktreeForBranch wts name = none)
    ∧ ((∀ wt ∈ wts, wt.branch ≠ some name) → name ≠ [] →
        (∀ args env db f, parseRemoveArgsAux args none false false = .ok (some name) db f →
          env.inRepo = true → env.worktreesResult = some wts →
          removeMain args env = (.notFound name, [])
          ∧ RemoveResult.exitCode (.notFound name) = 1)
        ∧ (∀ args env, parseSwitchArgsAux args none = .ok (some name) →
          env.inRepo = true → env.worktreesResult = some wts →
          switchMain args env = (.notFound name, [])
          ∧ SwitchResult.exitCode (.notFound name) = 1)) := by
  have hexact : ∀ wt, getWorktreeForBranch wts name = some wt → wt.branch = some name := by
    intro wt h
    have := List.find?_some h
    simpa using this
  have hnone : (∀ wt ∈ wts, wt.branch ≠ some name) → getWorktreeForBranch wts name = none := by
    intro h
    apply List.find?_eq_none.mpr
    intro wt hmem
    simpa using h wt hmem
  refine ⟨hexact, ?_, hnone, ?_⟩
  · intro wt _ hdet hfound
    have := hexact wt hfound
    rw [hdet] at this
    exact Option.noConfusion this
  · intro h hname
    have hfind := hnone h
    constructor
    · intro args env db f hp hrepo hw
      refine ⟨?_, rfl⟩
      simp [removeMain, hp, hrepo, hw, hfind, strTruthy, hname]
    · intro args env hp hrepo hw
      refine ⟨?_, rfl⟩
      simp [switchMain, hp, hrepo, hw, hfind, strTruthy, hname]

/-- Witness for C10: a listing holding a detached record and no record on
branch `feat` makes both `remove feat` and `switch feat` fail with the
not-found error. -/
theorem getWorktreeForBranch_exact_witness :
    removeMain ["feat".data] removeEnvC = (.notFound ("feat".data), [])
    ∧ switchMain ["feat".data] switchEnvA = (.notFound ("feat".data), []) := by
  have h := (getWorktreeForBranch_exact [wtMainRecord, wtDetachedRecord]
    ("feat".data)).2.2.2 (by decide) (by decide)
  exact ⟨(h.1 ["feat".data] removeEnvC false false (by decide) rfl rfl).1,
    (h.2 ["feat".data] switchEnvA (by decide) rfl rfl).1⟩

/-! ### Claim C8: sync exit codes -/

/-- Counterexample for C8: with valid arguments and a successful fetch,
worktree-sync still exits 1 when the worktree listing itself fails, so
exit 1 is not equivalent to invalid arguments or a failed fetch. -/
theorem syncMain_exit_cex :
    parseSyncArgsAux [] false = .ok false
    ∧ syncEnvB.fetchOk = true
    ∧ syncMain [] syncEnvB = .listFailed
    ∧ SyncResult.exitCode .listFailed = 1 :=
  ⟨rfl, rfl, rfl, rfl⟩

/-- Claim C8 (amended): given valid arguments, a repository and a
successful worktree listing, worktree-sync exits non-zero iff the
initial fetch fails; in particular the exit code is 0 in report-only
mode even when records are behind, and 0 in pull mode whatever the
per-record pull failures and skips. -/
theorem syncMain_exit_amended (args : List JStr) (env : SyncEnv) (pull : Bool)
    (wts : List Worktree)
    (hp : parseSyncArgsAux args false = .ok pull)
    (hrepo : env.inRepo = true)
    (hw : env.worktreesResult = some wts) :
    (syncMain args env).exitCode = if env.fetchOk then 0 else 1 := by
  unfold syncMain
  rw [hp]
  cases hf : env.fetchOk
  · simp [hrepo, hf, SyncResult.exitCode]
  · by_cases hl : wts.length = 0 <;> cases pull <;>
      simp [hrepo, hf, hw, hl, SyncResult.exitCode]

/-- Witness for C8: a concrete report-only run with a successful fetch
and listing exits 0. -/
theorem syncMain_exit_amended_witness :
    (syncMain [] syncEnvA).exitCode = if syncEnvA.fetchOk then 0 else 1 :=
  syncMain_exit_amended [] syncEnvA false [wtMainRecord] rfl rfl rfl

/-! ### Claim C5: the clean flag of the working-tree status -/

/-- Counterexample for C5: a status listing holding a single rename entry
yields zero modified/added/deleted/untracked counts and still reports not
clean, so `clean` is not equivalent to all four counts being zero. -/
theorem getWorktreeStatus_clean_cex :
    getWorktreeStatus (some renameStatusLine) =
      .counts { clean := false, modified := 0, added := 0, deleted := 0,
                untracked := 0, total := 1 } := by
  decide

/-- Claim C5 (amended): the derived status reports clean iff the filtered
status listing holds no entries at all (`total = 0`); clean still implies
that all four per-kind counts are zero, but not conversely. -/
theorem getWorktreeStatus_clean_amended (s : JStr) (c : StatusCounts)
    (h : getWorktreeStatus (some s) = .counts c) :
    (c.clean = true ↔ c.total = 0)
    ∧ (c.clean = true →
        c.modified = 0 ∧ c.added = 0 ∧ c.deleted = 0 ∧ c.untracked = 0) := by
  unfold getWorktreeStatus at h
  injection h with h
  subst h
  constructor
  · simp
  · intro hc
    simp only [beq_iff_eq, List.length_eq_zero] at hc
    simp [hc]

/-- Witness for C5: the amended theorem applied to a one-entry modified
listing. -/
theorem getWorktreeStatus_clean_amended_witness :
    (false = true ↔ (1 : Nat) = 0)
    ∧ (false = true → (1 : Nat) = 0 ∧ (0 : Nat) = 0 ∧ (0 : Nat) = 0 ∧ (0 : Nat) = 0) := by
  have h := getWorktreeStatus_clean_amended modifiedStatusLine
    { clean := false, modified := 1, added := 0, deleted := 0,
      untracked := 0, total := 1 } (by decide)
  exact h

/-! ### Claim C6: the current-branch query on a detached checkout -/

/-- Counterexample for C6: on a detached checkout the symbolic-name query
succeeds with the literal `HEAD`, so `getCurrentBranch` returns that
string rather than null. -/
theorem getCurrentBranch_detached_cex :
    currentBranchIn none = some ("HEAD".data)
    ∧ currentBranchIn none ≠ none := by
  decide

/-- Appending a trailing newline does not change the trimmed value. -/
theorem jsTrim_append_newline (b : JStr) : jsTrim (b ++ ['\x0a']) = jsTrim b := by
  unfold jsTrim
  rw [List.dropWhile_append]
  rcases h : b.dropWhile Char.isWhitespace with _ | ⟨c, cs⟩
  · simp
  · simp only [List.isEmpty_cons, Bool.false_eq_true, if_false, List.reverse_append,
      List.reverse_cons, List.reverse_nil, List.nil_append, List.singleton_append]
    rw [List.dropWhile_cons_of_pos (by decide)]

/-- Claim C6 (amended): `getCurrentBranch` returns the checked-out
branch's name when a branch is checked out, and the literal string
`HEAD` — not null — when the checkout is detached; null arises only when
the underlying query fails. -/
theorem getCurrentBranch_amended :
    (∀ b : JStr, jsTrim b = b → currentBranchIn (some b) = some b)
    ∧ currentBranchIn none = some ("HEAD".data) := by
  constructor
  · intro b hb
    show some (jsTrim (b ++ ['\x0a'])) = some b
    rw [jsTrim_append_newline b, hb]
  · decide

/-- Witness for C6: the amended theorem applied to the branch name
`main`. -/
theorem getCurrentBranch_amended_witness :
    currentBranchIn (some ("main".data)) = some ("main".data) :=
  getCurrentBranch_amended.1 ("main".data) (by decide)

/-! ### Claim C7: ensureGitignore -/

/-- Splitting distributes over an occurrence of the separator. -/
theorem jsSplitAux_append (sep : Char) (b : List Char) (a : List Char) :
    ∀ cur, jsSplitAux sep (a ++ sep :: b) cur
      = jsSplitAux sep a cur ++ jsSplitAux sep b [] := by
  induction a with
  | nil => intro cur; simp [jsSplitAux]
  | cons c cs ih =>
    intro cur
    by_cases hc : c = sep <;> simp [jsSplitAux, hc, ih]

/-- `jsSplit` distributes over an occurrence of the separator. -/
theorem jsSplit_append (a b : JStr) (sep : Char) :
    jsSplit (a ++ sep :: b) sep = jsSplit a sep ++ jsSplit b sep :=
  jsSplitAux_append sep b a []

/-- The line list of a content with the entry line appended. -/
theorem lines_of_append_entry (content : JStr) :
    jsSplit (content ++ "\n".data ++ WORKTREE_DIR ++ "/\n".data) '\x0a'
      = jsSplit content '\x0a' ++ [WORKTREE_DIR ++ "/".data, []] := by
  have hshape : content ++ "\n".data ++ WORKTREE_DIR ++ "/\n".data
      = content ++ ('\x0a' :: ((WORKTREE_DIR ++ "/".data) ++ '\x0a' :: [])) := by
    rw [List.append_assoc, List.append_assoc]
    congr 1
  rw [hshape, jsSplit_append]
  congr 1

/-- The branch of `ensureGitignore` on an existing file, written out. -/
theorem ensureGitignore_some_eq (content : JStr) :
    ensureGitignore (some content)
      = if ((jsSplit content '\x0a').contains WORKTREE_DIR
            || (jsSplit content '\x0a').contains (WORKTREE_DIR ++ "/".data)) then
          content
        else content ++ "\n".data ++ WORKTREE_DIR ++ "/\n".data := rfl

/-- The presence check of `ensureGitignore` is equivalent to the entry
line list being non-empty. -/
theorem gitignore_present_iff (content : JStr) :
    (((jsSplit content '\x0a').contains WORKTREE_DIR
        || (jsSplit content '\x0a').contains (WORKTREE_DIR ++ "/".data)) = true)
      ↔ entryLines content ≠ [] := by
  rw [Bool.or_eq_true, List.contains_iff_exists_mem_beq, List.contains_iff_exists_mem_beq]
  constructor
  · rintro (⟨x, hx, hbeq⟩ | ⟨x, hx, hbeq⟩) <;> rw [beq_iff_eq] at hbeq <;> subst hbeq
    · have hmem : WORKTREE_DIR ∈ entryLines content := by
        rw [entryLines, List.mem_filter]
        exact ⟨hx, by decide⟩
      exact List.ne_nil_of_mem hmem
    · have hmem : WORKTREE_DIR ++ "/".data ∈ entryLines content := by
        rw [entryLines, List.mem_filter]
        exact ⟨hx, by decide⟩
      exact List.ne_nil_of_mem hmem
  · intro h
    obtain ⟨x, hx⟩ := List.exists_mem_of_ne_nil _ h
    rw [entryLines, List.mem_filter, Bool.or_eq_true, beq_iff_eq, beq_iff_eq] at hx
    rcases hx.2 with h1 | h1
    · exact Or.inl ⟨x, hx.1, by rw [beq_iff_eq]; exact h1.symm⟩
    · exact Or.inr ⟨x, hx.1, by rw [beq_iff_eq]; exact h1.symm⟩

/-- `ensureGitignore` on a content that does not hold the entry. -/
theorem ensureGitignore_of_not_present (content : JStr)
    (h : entryLines content = []) :
    ensureGitignore (some content)
      = content ++ "\n".data ++ WORKTREE_DIR ++ "/\n".data := by
  have hc : ((jsSplit content '\x0a').contains WORKTREE_DIR
      || (jsSplit content '\x0a').contains (WORKTREE_DIR ++ "/".data)) = false := by
    cases hb : ((jsSplit content '\x0a').contains WORKTREE_DIR
      || (jsSplit content '\x0a').contains (WORKTREE_DIR ++ "/".data))
    · rfl
    · exact absurd h ((gitignore_present_iff content).mp hb)
  rw [ensureGitignore_some_eq, hc]
  simp

/-- `ensureGitignore` on a content that already holds the entry. -/
theorem ensureGitignore_of_present (content : JStr)
    (h : entryLines content ≠ []) :
    ensureGitignore (some content) = content := by
  rw [ensureGitignore_some_eq, (gitignore_present_iff content).mpr h]
  simp

/-- Entry lines of the appended content. -/
theorem entryLines_of_append (content : JStr) (h : entryLines content = []) :
    entryLines (ensureGitignore (some content))
      = entryLines content ++ [WORKTREE_DIR ++ "/".data] := by
  rw [ensureGitignore_of_not_present content h]
  unfold entryLines
  rw [lines_of_append_entry, List.filter_append]
  congr 1

/-- Counterexample for C7: a prior content already holding the entry
twice is left unchanged, so the call does not leave exactly one
occurrence of the reserved-directory entry. -/
theorem ensureGitignore_count_cex :
    ensureGitignore (some dupIgnoreContent) = dupIgnoreContent
    ∧ (entryLines dupIgnoreContent).length = 2
    ∧ (entryLines (ensureGitignore (some dupIgnoreContent))).length = 2 := by
  decide

/-- Claim C7 (amended): `ensureGitignore` is idempotent; it never removes
or reorders existing lines (the prior lines stay a prefix of the new
line list); when the prior content holds no entry line it appends the
entry with a trailing separator, leaving exactly one entry line; it
creates the file with exactly one entry line when absent; and it leaves
the content unchanged whenever at least one entry line (with or without
trailing separator) is already present — so it leaves exactly one entry
line whenever the prior content held at most one. -/
theorem ensureGitignore_amended :
    (∀ c : Option JStr, ensureGitignore (some (ensureGitignore c)) = ensureGitignore c)
    ∧ (∀ content : JStr,
        jsSplit content '\x0a' <+: jsSplit (ensureGitignore (some content)) '\x0a')
    ∧ (∀ content : JStr, entryLines content = [] →
        ensureGitignore (some content)
          = content ++ "\n".data ++ WORKTREE_DIR ++ "/\n".data
        ∧ (entryLines (ensureGitignore (some content))).length = 1)
    ∧ (entryLines (ensureGitignore none)).length = 1
    ∧ (∀ content : JStr, entryLines content ≠ [] →
        ensureGitignore (some content) = content) := by
  have happend : ∀ content : JStr, entryLines content = [] →
      entryLines (ensureGitignore (some content)) ≠ [] := by
    intro content h
    rw [entryLines_of_append content h, h]
    decide
  refine ⟨?_, ?_, ?_, by decide, ensureGitignore_of_present⟩
  · intro c
    match c with
    | none =>
      show ensureGitignore (some (WORKTREE_DIR ++ "/\n".data)) = WORKTREE_DIR ++ "/\n".data
      decide
    | some content =>
      by_cases h : entryLines content = []
      · exact ensureGitignore_of_present _ (happend content h)
      · rw [ensureGitignore_of_present content h]
        exact ensureGitignore_of_present content h
  · intro content
    by_cases h : entryLines content = []
    · rw [ensureGitignore_of_not_present content h, lines_of_append_entry]
      exact List.prefix_append _ _
    · rw [ensureGitignore_of_present content h]
  · intro content h
    refine ⟨ensureGitignore_of_not_present content h, ?_⟩
    rw [entryLines_of_append content h, h]
    rfl

/-- Witness for C7: the amended theorem applied to a one-line content
without the entry. -/
theorem ensureGitignore_amended_witness :
    ensureGitignore (some ("node_modules".data))
      = "node_modules".data ++ "\n".data ++ WORKTREE_DIR ++ "/\n".data
    ∧ (entryLines (ensureGitignore (some ("node_modules".data)))).length = 1 :=
  ensureGitignore_amended.2.2.1 ("node_modules".data) (by decide)

/-! ### Decoder structure lemmas (used by C3 and C4) -/

/-- Non-marker lines never change the path under construction. -/
theorem applyInfoLine_path (w : Worktree) (l : JStr) :
    (applyInfoLine w l).path = w.path := by
  unfold applyInfoLine
  (repeat' split) <;> rfl

/-- The decoder's fold agrees with the block-structured `recordsFrom`. -/
theorem foldl_step_eq (lines : List JStr) :
    ∀ acc cur, flushCurrent (lines.foldl getWorktreesStep (acc, cur))
      = acc ++ recordsFrom cur lines := by
  induction lines with
  | nil =>
    intro acc cur
    by_cases hc : cur.path = [] <;> simp [flushCurrent, recordsFrom, hc]
  | cons l rest ih =>
    intro acc cur
    rw [List.foldl_cons]
    by_cases hm : markerLine l
    · have hstep : getWorktreesStep (acc, cur) l
          = ((if cur.path ≠ [] then acc ++ [cur] else acc), { path := l.drop 9 }) := by
        have hm' : jsStartsWith l ("worktree ".data) = true := hm
        simp [getWorktreesStep, hm']
      rw [hstep, ih, recordsFrom, if_pos hm]
      by_cases hc : cur.path = [] <;> simp [hc, List.append_assoc]
    · have hstep : getWorktreesStep (acc, cur) l = (acc, applyInfoLine cur l) := by
        have hm' : jsStartsWith l ("worktree ".data) = false := by
          simpa [markerLine] using hm
        simp [getWorktreesStep, hm']
      rw [hstep, ih, recordsFrom, if_neg hm]

/-- Paths of the records contributed by `recordsFrom`, when every marker
line carries a non-empty path text. -/
theorem recordsFrom_map_path (lines : List JStr) :
    ∀ cur : Worktree,
      (∀ l ∈ lines, markerLine l = true → l.drop 9 ≠ []) →
      (recordsFrom cur lines).map Worktree.path
        = (if cur.path ≠ [] then [cur.path] else []) ++ markerPaths lines := by
  induction lines with
  | nil =>
    intro cur _
    by_cases hc : cur.path = [] <;> simp [recordsFrom, markerPaths, hc]
  | cons l rest ih =>
    intro cur h
    by_cases hm : markerLine l
    · have hne : l.drop 9 ≠ [] := h l (List.mem_cons_self l rest) hm
      rw [recordsFrom, if_pos hm, List.map_append,
        ih { path := l.drop 9 } (fun x hx hmx => h x (List.mem_cons_of_mem l hx) hmx)]
      have hmp : markerPaths (l :: rest) = l.drop 9 :: markerPaths rest := by
        simp [markerPaths, List.filter_cons, hm]
      rw [hmp]
      by_cases hc : cur.path = [] <;> simp [hc, hne]
    · rw [recordsFrom, if_neg hm,
        ih (applyInfoLine cur l) (fun x hx hmx => h x (List.mem_cons_of_mem l hx) hmx),
        applyInfoLine_path]
      have hmp : markerPaths (l :: rest) = markerPaths rest := by
        simp [markerPaths, List.filter_cons, hm]
      rw [hmp]

/-! ### Claim C3: one record per marker line -/

/-- Counterexample for C3: a listing with two marker lines, the first of
which has empty path text, decodes to a single record, so the decoder
does not return one record per marker line. -/
theorem getWorktrees_marker_count_cex :
    (markerPaths (jsSplit badMarkerListing '\x0a')).length = 2
    ∧ (getWorktrees badMarkerListing).length = 1
    ∧ (getWorktrees badMarkerListing).map Worktree.path = ["/a".data] := by
  decide

/-- Claim C3 (amended): for every porcelain listing in which each marker
line has non-empty path text, the decoder returns exactly one record per
marker line, in input order, whose path is the marker's path text. -/
theorem getWorktrees_paths_amended (output : JStr)
    (h : ∀ l ∈ jsSplit output '\x0a', markerLine l = true → l.drop 9 ≠ []) :
    (getWorktrees output).map Worktree.path = markerPaths (jsSplit output '\x0a') := by
  unfold getWorktrees parseWorktreeLines
  rw [foldl_step_eq (jsSplit output '\x0a') [] { path := [] }, List.nil_append,
    recordsFrom_map_path (jsSplit output '\x0a') { path := [] } h]
  simp

/-- Witness for C3: the amended theorem applied to a two-block listing. -/
theorem getWorktrees_paths_amended_witness :
    (getWorktrees goodListing).map Worktree.path
      = markerPaths (jsSplit goodListing '\x0a') :=
  getWorktrees_paths_amended goodListing (by decide)

/-! ### Claim C4: the detached flag -/

/-- Two field markers with different first characters cannot both start
the same line. -/
theorem startsWith_disjoint {l p q : JStr} {c d : Char} {ps qs : JStr}
    (hp : p = c :: ps) (hq : q = d :: qs) (hcd : c ≠ d)
    (h : jsStartsWith l p = true) : jsStartsWith l q = false := by
  subst hp; subst hq
  unfold jsStartsWith at h ⊢
  rcases List.isPrefixOf_iff_prefix.mp h with ⟨t1, ht1⟩
  cases hq' : (d :: qs).isPrefixOf l
  · rfl
  · exfalso
    rcases List.isPrefixOf_iff_prefix.mp hq' with ⟨t2, ht2⟩
    rw [← ht1] at ht2
    rw [List.cons_append, List.cons_append] at ht2
    injection ht2 with h1 _
    exact hcd h1.symm

/-- The detached flag after one info line: set exactly by a `detached`
line, preserved by every other line. -/
theorem applyInfoLine_detached (w : Worktree) (l : JStr) :
    (applyInfoLine w l).detached
      = (w.detached || decide (l = "detached".data)) := by
  by_cases hl : l = "detached".data
  · subst hl
    have hred : applyInfoLine w ("detached".data) = { w with detached := true } := rfl
    rw [hred]
    simp
  · unfold applyInfoLine
    (repeat' split) <;> simp_all

/-- The branch field after one info line: set exactly by a `branch `
line, preserved by every other line. -/
theorem applyInfoLine_branch (w : Worktree) (l : JStr) :
    (applyInfoLine w l).branch
      = if jsStartsWith l ("branch ".data) = true then
          some (jsRemoveFirst (l.drop 7) ("refs/heads/".data))
        else w.branch := by
  by_cases hb : jsStartsWith l ("branch ".data) = true
  · have hH : jsStartsWith l ("HEAD ".data) = false :=
      startsWith_disjoint rfl rfl (by decide) hb
    simp [applyInfoLine, hH, hb]
  · unfold applyInfoLine
    (repeat' split) <;> simp_all

/-- The detached flag accumulated over a block's info lines. -/
theorem foldl_applyInfoLine_detached (infos : List JStr) :
    ∀ w : Worktree, (infos.foldl applyInfoLine w).detached
      = (w.detached || infos.any (fun l => decide (l = "detached".data))) := by
  induction infos with
  | nil => intro w; simp
  | cons l rest ih =>
    intro w
    rw [List.foldl_cons, ih, applyInfoLine_detached]
    simp [Bool.or_assoc]

/-- The branch field over a block without branch lines. -/
theorem foldl_applyInfoLine_branch_none (infos : List JStr) :
    ∀ w : Worktree, (∀ l ∈ infos, jsStartsWith l ("branch ".data) = false) →
      (infos.foldl applyInfoLine w).branch = w.branch := by
  induction infos with
  | nil => intro w _; rfl
  | cons l rest ih =>
    intro w h
    rw [List.foldl_cons, ih _ (fun x hx => h x (List.mem_cons_of_mem l hx)),
      applyInfoLine_branch, if_neg (by simp [h l (List.mem_cons_self l rest)])]

/-- Every record contributed by `recordsFrom` comes from the record
under construction or from one marker-started block of info lines. -/
theorem recordsFrom_mem (lines : List JStr) :
    ∀ (cur r : Worktree), r ∈ recordsFrom cur lines →
      (∃ infos : List JStr, (∀ l ∈ infos, markerLine l = false)
        ∧ r = infos.foldl applyInfoLine cur ∧ cur.path ≠ [])
      ∨ (∃ p infos, p ≠ [] ∧ (∀ l ∈ infos, markerLine l = false)
        ∧ r = procBlock p infos) := by
  induction lines with
  | nil =>
    intro cur r hr
    rw [recordsFrom] at hr
    by_cases hc : cur.path = []
    · simp [hc] at hr
    · rw [if_pos hc] at hr
      rcases List.mem_singleton.mp hr with rfl
      exact Or.inl ⟨[], by simp, rfl, hc⟩
  | cons l rest ih =>
    intro cur r hr
    rw [recordsFrom] at hr
    by_cases hm : markerLine l
    · rw [if_pos hm] at hr
      rcases List.mem_append.mp hr with h1 | h2
      · by_cases hc : cur.path = []
        · simp [hc] at h1
        · rw [if_pos hc] at h1
          rcases List.mem_singleton.mp h1 with rfl
          exact Or.inl ⟨[], by simp, rfl, hc⟩
      · rcases ih _ r h2 with ⟨infos, hni, hre, hp⟩ | h
        · exact Or.inr ⟨l.drop 9, infos, hp, hni, hre⟩
        · exact Or.inr h
    · rw [if_neg hm] at hr
      rcases ih _ r hr with ⟨infos, hni, hre, hp⟩ | h
      · refine Or.inl ⟨l :: infos, ?_, ?_, ?_⟩
        · intro x hx
          rcases List.mem_cons.mp hx with rfl | hx'
          · simpa using hm
          · exact hni x hx'
        · rw [List.foldl_cons]
          exact hre
        · rw [applyInfoLine_path] at hp
          exact hp
      · exact Or.inr h

/-- Counterexample for C4: a block holding both a `branch` line and a
`detached` line decodes to a record with the detached flag set and a
non-null branch name, so the detached flag is not equivalent to
"detached marker and no branch line", and a detached record can carry a
branch name. -/
theorem getWorktrees_detached_cex :
    getWorktrees branchDetachedListing
      = [{ path := "/a".data, branch := some ("x".data), detached := true }]
    ∧ "branch refs/heads/x".data ∈ jsSplit branchDetachedListing '\x0a'
    ∧ "detached".data ∈ jsSplit branchDetachedListing '\x0a' := by
  decide

/-- Claim C4 (amended): every decoded record arises from one
marker-started block; its detached flag is set iff the block contains a
`detached` marker line (a coexisting `branch` line does not clear it);
and when the block contains no `branch` line the record's branch name is
null. -/
theorem getWorktrees_detached_amended (output : JStr) (r : Worktree)
    (hr : r ∈ getWorktrees output) :
    ∃ p infos, p ≠ []
      ∧ (∀ l ∈ infos, markerLine l = false)
      ∧ r = procBlock p infos
      ∧ (r.detached = true ↔ ("detached".data : JStr) ∈ infos)
      ∧ ((∀ l ∈ infos, jsStartsWith l ("branch ".data) = false) → r.branch = none) := by
  have hr' : r ∈ recordsFrom { path := [] } (jsSplit output '\x0a') := by
    unfold getWorktrees parseWorktreeLines at hr
    rw [foldl_step_eq (jsSplit output '\x0a') [] { path := [] },
      List.nil_append] at hr
    exact hr
  rcases recordsFrom_mem _ _ r hr' with ⟨infos, _, _, hp⟩ | ⟨p, infos, hp, hni, hre⟩
  · exact absurd rfl hp
  · refine ⟨p, infos, hp, hni, hre, ?_, ?_⟩
    · rw [hre]
      unfold procBlock
      rw [foldl_applyInfoLine_detached]
      simp
    · intro hb
      rw [hre]
      unfold procBlock
      rw [foldl_applyInfoLine_branch_none infos _ hb]

/-- Witness for C4: the amended theorem applied to a one-block detached
listing. -/
theorem getWorktrees_detached_amended_witness :
    ∃ p infos, p ≠ []
      ∧ (∀ l ∈ infos, markerLine l = false)
      ∧ ({ path := "/a".data, detached := true } : Worktree) = procBlock p infos
      ∧ (({ path := "/a".data, detached := true } : Worktree).detached = true
          ↔ ("detached".data : JStr) ∈ infos)
      ∧ ((∀ l ∈ infos, jsStartsWith l ("branch ".data) = false) →
          ({ path := "/a".data, detached := true } : Worktree).branch = none) :=
  getWorktrees_detached_amended detachedListing
    { path := "/a".data, detached := true } (by decide)

end WT
